import Mathlib

/-!
Verification of the TrustyFile fraud-detection pipeline.

This file gives a shallow embedding, in Lean 4, of the parts of the
TrustyFile source that the verified claims are about:

* src/src/models.py        — Flag, ModuleResult, AnalysisResult
* src/src/scoring.py       — weights, final score, flag collection, risk
                             levels and the critical-flag override
* src/src/modules/content.py — SIRET / SIREN / French VAT checksums
* src/src/modules/twod_doc.py — 2D-DOC header, date and message parsing
* src/src/analyzer.py      — the module fan-out of TrustyFileAnalyzer.analyze

Python floats are embedded as exact rationals (the constants involved are
decimal literals and the claims are about the arithmetic formulas, not
float rounding), Python ints as Lean integers, and Python strings as
lists of characters.  Fallible code is embedded with Option / Except.
-/

namespace TrustyFile

/-! ## Data model (src/src/models.py) -/

/-- Severity levels of a flag, src/src/models.py: the Literal type
SeverityLevel = Literal["low", "medium", "high", "critical"]. -/
inductive Severity
  | low
  | medium
  | high
  | critical
deriving DecidableEq

/-- A single suspicious finding, src/src/models.py class Flag.  The
optional free-form details dict carries no meaning for any verified
claim and is not modelled. -/
structure Flag where
  severity : Severity
  code : String
  message : String
deriving DecidableEq

/-- Result returned by each analysis module, src/src/models.py class
ModuleResult.  score is a Python int, confidence a Python float. -/
structure ModuleResult where
  module : String
  flags : List Flag
  score : ℤ
  confidence : ℚ
deriving DecidableEq

/-- Risk levels, src/src/scoring.py get_risk_level return type. -/
inductive RiskLevel
  | LOW
  | MEDIUM
  | HIGH
  | CRITICAL
deriving DecidableEq

/-- Final result combining all module analyses, src/src/models.py class
AnalysisResult. -/
structure AnalysisResult where
  file_hash : String
  trust_score : ℤ
  risk_level : RiskLevel
  modules : List ModuleResult
  analysis_time_ms : ℤ
deriving DecidableEq

/-! ## Python round

Python's builtin round() rounds to the nearest integer, ties to the even
integer.  On exact rationals that is the following function. -/

/-- Embedding of Python round(q) for a rational q: nearest integer,
ties go to the even integer. -/
def pyRound (q : ℚ) : ℤ :=
  if q - ⌊q⌋ < 1/2 then ⌊q⌋
  else if 1/2 < q - ⌊q⌋ then ⌊q⌋ + 1
  else if 2 ∣ ⌊q⌋ then ⌊q⌋ else ⌊q⌋ + 1

theorem pyRound_intCast (n : ℤ) : pyRound (n : ℚ) = n := by
  simp [pyRound]

theorem floor_le_pyRound (q : ℚ) : ⌊q⌋ ≤ pyRound q := by
  rw [pyRound]
  split
  · exact le_refl _
  split
  · omega
  split
  · exact le_refl _
  · omega

theorem pyRound_le_floor_add_one (q : ℚ) : pyRound q ≤ ⌊q⌋ + 1 := by
  rw [pyRound]
  split
  · omega
  split
  · exact le_refl _
  split
  · omega
  · exact le_refl _

/-! ## Scoring engine (src/src/scoring.py) -/

/-- Module weight table, src/src/scoring.py MODULE_WEIGHTS.  Note that
the source dict has no entry for the forensics module. -/
def MODULE_WEIGHTS : List (String × ℚ) :=
  [("metadata", 1.0), ("content", 1.2), ("visual", 0.8), ("fonts", 0.9),
   ("images", 0.8), ("structure", 1.3), ("external", 1.5)]

/-- Default weight for unknown modules, src/src/scoring.py DEFAULT_WEIGHT. -/
def DEFAULT_WEIGHT : ℚ := 1.0

/-- Embedding of MODULE_WEIGHTS.get(module, DEFAULT_WEIGHT). -/
def moduleWeight (module : String) : ℚ :=
  match MODULE_WEIGHTS.find? (fun e => e.1 == module) with
  | some e => e.2
  | none => DEFAULT_WEIGHT

/-- Convert a numeric score to a risk level, src/src/scoring.py
get_risk_level. -/
def get_risk_level (score : ℤ) : RiskLevel :=
  if 80 ≤ score then RiskLevel.LOW
  else if 50 ≤ score then RiskLevel.MEDIUM
  else if 20 ≤ score then RiskLevel.HIGH
  else RiskLevel.CRITICAL

/-- Final trust score from all module results, src/src/scoring.py
calculate_final_score.  The accumulation loop over module results is
embedded as two left folds (the loop updates both accumulators in
lockstep; over exact rationals the result is the same). -/
def calculate_final_score (module_results : List ModuleResult) : ℤ :=
  if module_results = [] then 100
  else
    let weighted_sum := module_results.foldl
      (fun acc r => acc + (r.score : ℚ) * (moduleWeight r.module * r.confidence)) 0
    let weight_total := module_results.foldl
      (fun acc r => acc + moduleWeight r.module * r.confidence) 0
    if weight_total = 0 then 100
    else pyRound (max 0 (min 100 (weighted_sum / weight_total)))

/-- Sort key used by collect_all_flags, src/src/scoring.py
severity_order = critical 0, high 1, medium 2, low 3.  The source dict
lookup carries a default of 4, which is unreachable because the
SeverityLevel Literal type has exactly the four listed values. -/
def severity_order (s : Severity) : ℕ :=
  match s with
  | Severity.critical => 0
  | Severity.high => 1
  | Severity.medium => 2
  | Severity.low => 3

/-- Stable insertion of a flag in front of the first flag with a
strictly larger sort key. -/
def insertFlag (x : Flag) : List Flag → List Flag
  | [] => [x]
  | y :: ys =>
    if severity_order x.severity ≤ severity_order y.severity then x :: y :: ys
    else y :: insertFlag x ys

/-- Embedding of Python list.sort(key=severity_order): a stable sort by
the severity key.  Python guarantees its sort is stable; stable
insertion sort is the canonical stable sort and agrees with it
extensionally. -/
def pySortFlags : List Flag → List Flag
  | [] => []
  | x :: xs => insertFlag x (pySortFlags xs)

/-- Collect all flags from all modules sorted by severity,
src/src/scoring.py collect_all_flags. -/
def collect_all_flags (module_results : List ModuleResult) : List Flag :=
  pySortFlags (module_results.flatMap (fun r => r.flags))

/-- Count flags by severity level, src/src/scoring.py
count_flags_by_severity (the Python dict is embedded as a function from
severities to counts). -/
def count_flags_by_severity (flags : List Flag) (s : Severity) : ℕ :=
  flags.countP (fun f => f.severity == s)

/-- Final analysis result with the critical-flag override,
src/src/scoring.py create_analysis_result.  The two sequential mutation
blocks of the source are embedded as let-chains applied in the same
order. -/
def create_analysis_result (file_hash : String)
    (module_results : List ModuleResult) (analysis_time_ms : ℤ) :
    AnalysisResult :=
  let trust_score0 := calculate_final_score module_results
  let risk_level0 := get_risk_level trust_score0
  let all_flags := collect_all_flags module_results
  let crit := count_flags_by_severity all_flags Severity.critical
  let high := count_flags_by_severity all_flags Severity.high
  let med := count_flags_by_severity all_flags Severity.medium
  let risk_level1 :=
    if 1 ≤ crit then
      if risk_level0 = RiskLevel.LOW ∨ risk_level0 = RiskLevel.MEDIUM then
        RiskLevel.HIGH
      else risk_level0
    else risk_level0
  let trust_score1 :=
    if 1 ≤ crit then
      max (min trust_score0 40 - 5 * (high : ℤ) - 2 * (med : ℤ)) 5
    else trust_score0
  let risk_level2 := if 2 ≤ crit then RiskLevel.CRITICAL else risk_level1
  let trust_score2 := if 2 ≤ crit then min trust_score1 19 else trust_score1
  { file_hash := file_hash
    trust_score := trust_score2
    risk_level := risk_level2
    modules := module_results
    analysis_time_ms := analysis_time_ms }

/-! ## French identifier checksums (src/src/modules/content.py)

Python strings are embedded as lists of characters.  The source uses
str.isdigit, int(ch) and str.upper; on the ASCII inputs the claims are
about, these are the functions below (the Unicode-digit corner cases of
Python str.isdigit play no role in any claim). -/

/-- Embedding of the Python digit test ch.isdigit() on ASCII. -/
def isDigitChar (c : Char) : Bool :=
  48 ≤ c.toNat && c.toNat ≤ 57

/-- Embedding of Python int(ch) for a single digit character. -/
def digitVal (c : Char) : ℕ :=
  c.toNat - 48

/-- Embedding of Python str.upper on ASCII. -/
def toUpperChar (c : Char) : Char :=
  if 97 ≤ c.toNat ∧ c.toNat ≤ 122 then Char.ofNat (c.toNat - 32) else c

/-- Embedding of Python int(s) for a string of digit characters. -/
def digitsVal (s : List Char) : ℕ :=
  s.foldl (fun acc c => 10 * acc + digitVal c) 0

/-- Luhn accumulation loop shared by validate_siret_checksum and
validate_siren_checksum: positions congruent to parity are doubled,
with 9 subtracted when the double exceeds 9.  The index i mirrors the
enumerate() counter of the source. -/
def luhnGo (parity : ℕ) (i : ℕ) : List Char → ℕ
  | [] => 0
  | c :: cs =>
    (if i % 2 = parity then
      let t := 2 * digitVal c
      if 9 < t then t - 9 else t
    else digitVal c) + luhnGo parity (i + 1) cs

/-- Validate a SIRET number using the Luhn algorithm,
src/src/modules/content.py validate_siret_checksum: 14 digits, doubling
at even 0-indexed positions. -/
def validate_siret_checksum (siret : List Char) : Bool :=
  if siret.length = 14 && siret.all isDigitChar then
    luhnGo 0 0 siret % 10 = 0
  else false

/-- Validate a SIREN number using the Luhn algorithm,
src/src/modules/content.py validate_siren_checksum: 9 digits, doubling
at odd 0-indexed positions. -/
def validate_siren_checksum (siren : List Char) : Bool :=
  if siren.length = 9 && siren.all isDigitChar then
    luhnGo 1 0 siren % 10 = 0
  else false

/-- Embedding of the cleanup step of validate_french_vat:
vat.upper().replace(" ", "").replace(".", ""). -/
def cleanVat (vat : List Char) : List Char :=
  ((vat.map toUpperChar).filter (fun c => c ≠ ' ')).filter (fun c => c ≠ '.')

/-- Embedding of the regex test re.match(two-letter FR then 11 digits,
anchored at both ends) used by validate_french_vat. -/
def matchesFrVat (vat : List Char) : Bool :=
  vat.length = 13 && vat.take 2 = ['F', 'R'] && (vat.drop 2).all isDigitChar

/-- Validate a French VAT number, src/src/modules/content.py
validate_french_vat. -/
def validate_french_vat (vat : List Char) : Bool :=
  let v := cleanVat vat
  if matchesFrVat v then
    let check_digits := digitsVal ((v.drop 2).take 2)
    let siren := v.drop 4
    if validate_siren_checksum siren then
      check_digits = (12 + 3 * (digitsVal siren % 97)) % 97
    else false
  else false

/-! ## Calendar dates

Embedding of the Python datetime.date values used by the 2D-DOC module.
A Python date is a civil calendar date; adding a timedelta of n days
means taking the n-th successor day.  The proleptic Gregorian day
ordinal (toOrdinal below) is proved to advance by one under nextDay,
which ties this model to day counting. -/

/-- A Python datetime.date: a civil Gregorian calendar date. -/
structure PyDate where
  year : ℕ
  month : ℕ
  day : ℕ
deriving DecidableEq

/-- Gregorian leap year rule. -/
def isLeapYear (y : ℕ) : Bool :=
  y % 4 = 0 && (y % 100 != 0 || y % 400 = 0)

/-- Number of days of a month in a given year. -/
def daysInMonth (y m : ℕ) : ℕ :=
  if m = 2 then (if isLeapYear y then 29 else 28)
  else if m = 4 ∨ m = 6 ∨ m = 9 ∨ m = 11 then 30
  else 31

/-- The day after a given civil date. -/
def nextDay (d : PyDate) : PyDate :=
  if d.day < daysInMonth d.year d.month then ⟨d.year, d.month, d.day + 1⟩
  else if d.month < 12 then ⟨d.year, d.month + 1, 1⟩
  else ⟨d.year + 1, 1, 1⟩

/-- Embedding of Python date + timedelta(days = n): the n-th successor
day. -/
def addDays (d : PyDate) (n : ℕ) : PyDate :=
  nextDay^[n] d

/-- A structurally valid civil date. -/
def validDate (d : PyDate) : Prop :=
  1 ≤ d.year ∧ 1 ≤ d.month ∧ d.month ≤ 12 ∧ 1 ≤ d.day ∧
    d.day ≤ daysInMonth d.year d.month

instance (d : PyDate) : Decidable (validDate d) := by
  unfold validDate
  infer_instance

/-- Days in the year before the first of a given month. -/
def daysBeforeMonth (y m : ℕ) : ℕ :=
  (if m = 1 then 0 else if m = 2 then 31 else if m = 3 then 59
   else if m = 4 then 90 else if m = 5 then 120 else if m = 6 then 151
   else if m = 7 then 181 else if m = 8 then 212 else if m = 9 then 243
   else if m = 10 then 273 else if m = 11 then 304 else 334)
  + (if 3 ≤ m ∧ isLeapYear y then 1 else 0)

/-- Proleptic Gregorian day number of a civil date (0001-01-01 is day
0); differences of this ordinal count days between dates, exactly as
differences of Python date.toordinal() do. -/
def toOrdinal (d : PyDate) : ℕ :=
  365 * (d.year - 1) + (d.year - 1) / 4 + (d.year - 1) / 400
    + daysBeforeMonth d.year d.month + (d.day - 1) - (d.year - 1) / 100

/-! ## 2D-DOC parsing (src/src/modules/twod_doc.py) -/

/-- Reference date for 2D-DOC date calculations, src/src/modules/
twod_doc.py DATE_REFERENCE = date(2000, 1, 1). -/
def DATE_REFERENCE : PyDate := ⟨2000, 1, 1⟩

/-- Value of one hexadecimal character, as accepted by Python
int(ch, 16). -/
def hexDigitValue (c : Char) : Option ℕ :=
  if 48 ≤ c.toNat ∧ c.toNat ≤ 57 then some (c.toNat - 48)
  else if 97 ≤ c.toNat ∧ c.toNat ≤ 102 then some (c.toNat - 87)
  else if 65 ≤ c.toNat ∧ c.toNat ≤ 70 then some (c.toNat - 55)
  else none

/-- Accumulating loop of hexStringValue. -/
def hexFold (acc : ℕ) : List Char → Option ℕ
  | [] => some acc
  | c :: cs =>
    match hexDigitValue c with
    | some v => hexFold (16 * acc + v) cs
    | none => none

/-- Embedding of Python int(s, 16) with ValueError mapped to none: a
non-empty string of hexadecimal digits evaluates in base 16, anything
else fails.  (The Python extras — surrounding whitespace, a sign, an 0x
prefix — never arise in this code path and are not modelled.) -/
def hexStringValue (s : List Char) : Option ℕ :=
  if s = [] then none else hexFold 0 s

/-- Convert a 4-character hex date to a date, src/src/modules/
twod_doc.py hex_date_to_date: FFFF (case-insensitively) means absent,
otherwise the hex value counts days after DATE_REFERENCE; invalid hex
degrades to none. -/
def hex_date_to_date (hex_str : List Char) : Option PyDate :=
  if hex_str.map toUpperChar = "FFFF".toList then none
  else
    match hexStringValue hex_str with
    | some days => some (addDays DATE_REFERENCE days)
    | none => none

/-- Modelled from the spec: the spec (section 8, round trips) speaks of
the 4-character uppercase hexadecimal encoding hex(n) of a day count;
the source has no encoder, only the decoder hex_date_to_date. -/
def natToHexDigitChar (n : ℕ) : Char :=
  if n < 10 then Char.ofNat (48 + n) else Char.ofNat (55 + n)

/-- Modelled from the spec: 4-character uppercase hexadecimal encoding
of a day count below 65536. -/
def toHex4 (n : ℕ) : List Char :=
  [natToHexDigitChar (n / 4096 % 16), natToHexDigitChar (n / 256 % 16),
   natToHexDigitChar (n / 16 % 16), natToHexDigitChar (n % 16)]

/-- Modelled from the spec: days_since_2000(d), the number of days from
2000-01-01 to d, as the difference of day ordinals (exactly what Python
(d - date(2000, 1, 1)).days computes). -/
def days_since_2000 (d : PyDate) : ℕ :=
  toOrdinal d - toOrdinal DATE_REFERENCE

/-- Parsed 2D-DOC header, src/src/modules/twod_doc.py class
TwoDocHeader. -/
structure TwoDocHeader where
  raw : List Char
  version : List Char
  ca_id : List Char
  cert_id : List Char
  emission_date : Option PyDate
  signature_date : Option PyDate
  document_type : List Char
  perimeter : Option (List Char)
  country : Option (List Char)
deriving DecidableEq

/-- Header marker, src/src/modules/twod_doc.py HEADER_MARKER. -/
def HEADER_MARKER : String := "DC"

/-- Header sizes by version, src/src/modules/twod_doc.py HEADER_SIZES. -/
def HEADER_SIZES : List (String × ℕ) :=
  [("01", 22), ("02", 22), ("03", 24), ("04", 26)]

/-- Parse the header from raw 2D-DOC barcode data, src/src/modules/
twod_doc.py parse_header. -/
def parse_header (raw_data : List Char) : Option TwoDocHeader :=
  if raw_data.length < 4 then none
  else if raw_data.take 2 ≠ HEADER_MARKER.toList then none
  else
    let version := (raw_data.drop 2).take 2
    match HEADER_SIZES.find? (fun e => e.1.toList == version) with
    | none => none
    | some e =>
      let header_size := e.2
      if raw_data.length < header_size then none
      else some
        { raw := raw_data.take header_size
          version := version
          ca_id := (raw_data.drop 4).take 4
          cert_id := (raw_data.drop 8).take 4
          emission_date := hex_date_to_date ((raw_data.drop 12).take 4)
          signature_date := hex_date_to_date ((raw_data.drop 16).take 4)
          document_type := (raw_data.drop 20).take 2
          perimeter :=
            if version = "03".toList ∨ version = "04".toList then
              some ((raw_data.drop 22).take 2)
            else none
          country :=
            if version = "04".toList then some ((raw_data.drop 24).take 2)
            else none }

/-- Modelled from the spec: the header generator of section 4.11 (the
round-trip property of section 8 refers to build(version, ca, cert,
emission, signature, type, perimeter?, country?)); the source only
builds headers by literal concatenation in its self-test.  Fields are
concatenated at their fixed positions; the perimeter is appended for
versions 03 and 04 and the country for version 04, per the header
grammar. -/
def build_header (version ca_id cert_id emission_hex sig_hex
    document_type perimeter country : List Char) : List Char :=
  'D' :: 'C' ::
    (version ++ (ca_id ++ (cert_id ++ (emission_hex ++ (sig_hex ++
      (document_type ++
        ((if version = "03".toList ∨ version = "04".toList then perimeter
          else [])
        ++ (if version = "04".toList then country else []))))))))

/-! ## 2D-DOC message zone -/

/-- Group Separator (ASCII 29), terminates variable-length fields. -/
def GS : Char := Char.ofNat 29

/-- Record Separator (ASCII 30), the source comment says it indicates a
truncated field. -/
def RS : Char := Char.ofNat 30

/-- Unit Separator (ASCII 31), marks end of message / start of
signature. -/
def US : Char := Char.ofNat 31

/-- A single data field of the 2D-DOC message, src/src/modules/
twod_doc.py class TwoDocField. -/
structure TwoDocField where
  di : String
  value : String
  name : String
deriving DecidableEq

/-- Data Identifier registry, src/src/modules/twod_doc.py DI_REGISTRY:
DI code to (field name, fixed length or none for variable length). -/
def DI_REGISTRY : List (String × String × Option ℕ) :=
  [("10", "Qualité + Nom + Prénom du bénéficiaire", none),
   ("11", "Qualité du bénéficiaire", none),
   ("12", "Prénom du bénéficiaire", none),
   ("13", "Nom du bénéficiaire", none),
   ("14", "Qualité + Nom + Prénom du destinataire facture", none),
   ("15", "Qualité du destinataire facture", none),
   ("16", "Prénom du destinataire facture", none),
   ("17", "Nom du destinataire facture", none),
   ("18", "Numéro de facture", none),
   ("19", "Numéro de client", none),
   ("1A", "Numéro du contrat", none),
   ("1B", "Identifiant souscripteur", none),
   ("1C", "Date d\x27effet du contrat", none),
   ("1D", "Montant de la facture", none),
   ("1E", "Téléphone du bénéficiaire", none),
   ("1F", "Téléphone du destinataire", none),
   ("1G", "Co-bénéficiaire présent", some 1),
   ("1H", "Co-destinataire présent", some 1),
   ("1I", "Ligne 1 adresse co-bénéficiaire", none),
   ("1J", "Qualité co-bénéficiaire", none),
   ("1K", "Prénom co-bénéficiaire", none),
   ("1L", "Nom co-bénéficiaire", none),
   ("1M", "Ligne 1 adresse co-destinataire", none),
   ("1N", "Qualité co-destinataire", none),
   ("1O", "Prénom co-destinataire", none),
   ("1P", "Nom co-destinataire", none),
   ("20", "Ligne 2 adresse service", none),
   ("21", "Ligne 3 adresse service", none),
   ("22", "N° + type + nom de voie", none),
   ("23", "Ligne 5 adresse (lieu-dit/BP)", none),
   ("24", "Code postal", some 5),
   ("25", "Localité (ville)", none),
   ("26", "Pays", some 2),
   ("27", "Ligne 2 adresse destinataire", none),
   ("28", "Ligne 3 adresse destinataire", none),
   ("29", "N° + voie destinataire", none),
   ("2A", "Ligne 5 adresse destinataire", none),
   ("2B", "Code postal destinataire", some 5),
   ("2C", "Localité destinataire", none),
   ("2D", "Pays destinataire", some 2),
   ("30", "Qualité Nom Prénom titulaire", none),
   ("31", "Code IBAN", none),
   ("32", "Code BIC", none),
   ("41", "Revenu fiscal de référence", none),
   ("43", "Nombre de parts", none),
   ("44", "Référence avis + déclarant", none),
   ("45", "Année des revenus", some 4),
   ("46", "Déclarant 1", none),
   ("47", "Numéro fiscal déclarant 1", some 13),
   ("48", "Déclarant 2", none),
   ("49", "Numéro fiscal déclarant 2", some 13),
   ("4B", "Date de la déclaration", some 8),
   ("4V", "Impôt sur le revenu net", none),
   ("4W", "Reste à payer", none),
   ("4X", "Retenue à la source", none),
   ("50", "SIRET employeur", some 14),
   ("53", "Début de période", none),
   ("54", "Fin de période", none),
   ("55", "Date début contrat", none),
   ("58", "Salaire net imposable", none),
   ("59", "Cumul salaire net imposable", none),
   ("01", "Identifiant unique document", none),
   ("02", "Catégorie document", none),
   ("03", "Sous-catégorie document", none),
   ("08", "Date expiration document", none),
   ("09", "Nombre de pages", some 4),
   ("60", "Liste des prénoms", none),
   ("61", "Prénom", none),
   ("62", "Nom patronymique", none),
   ("63", "Nom d\x27usage", none),
   ("65", "Type pièce d\x27identité", none),
   ("66", "Numéro pièce d\x27identité", none),
   ("67", "Nationalité", some 2),
   ("68", "Genre", some 1),
   ("69", "Date de naissance", some 8),
   ("6A", "Lieu de naissance", none),
   ("6C", "Pays de naissance", some 2),
   ("6G", "Nom", none),
   ("6H", "Civilité", none),
   ("6N", "Date début validité", none),
   ("6O", "Date fin validité", none),
   ("AC", "N° Dossier", none),
   ("AD", "Date infraction", none),
   ("AE", "Heure infraction", none),
   ("AG", "Solde de points", none),
   ("E0", "Type d\x27arrêtés Permis", none),
   ("E1", "Date édition document", none),
   ("E2", "Date fin de sanction", none),
   ("E3", "Date de notification", none),
   ("E4", "Type de relevé permis", none),
   ("E5", "État du permis", none),
   ("E6", "Catégories permis", none),
   ("E7", "SIREN demandeur", none),
   ("E8", "Date données SNCP", none),
   ("E9", "N° Dossier", none),
   ("EA", "Nature épreuve", none),
   ("EB", "Matricule inspecteur", none),
   ("EC", "Date examen", none),
   ("ED", "Catégorie permis", none)]

/-- Look up a Data Identifier in the registry, src/src/modules/
twod_doc.py get_di_info; unknown DIs yield a made-up name and variable
length. -/
def get_di_info (di : String) : String × Option ℕ :=
  match DI_REGISTRY.find? (fun e => e.1 == di) with
  | some e => e.2
  | none => ("Champ inconnu (" ++ di ++ ")", none)

/-- Character class scanned over by variable-length values: everything
except GS, RS and US. -/
def notSeparator (ch : Char) : Bool :=
  !(ch == GS || ch == RS || ch == US)

theorem length_dropWhile_le (p : Char → Bool) (l : List Char) :
    (l.dropWhile p).length ≤ l.length := by
  induction l with
  | nil => simp [List.dropWhile]
  | cons a l ih =>
    simp only [List.dropWhile]
    split
    · exact Nat.le_trans ih (Nat.le_succ _)
    · simp

/-- Parse the message zone into a list of DI+DATA fields,
src/src/modules/twod_doc.py parse_message.  The while loop over the
read position is embedded as recursion on the unread suffix: breaking
at US or when fewer than 2 characters remain, reading the
2-character DI, then either a fixed-length value (clipped to the
remaining data, which ends the scan) or a variable-length value scanned
up to GS, RS or US, consuming a GS or RS terminator but leaving US for
the next iteration to break on. -/
def parse_message : List Char → List TwoDocField
  | [] => []
  | c1 :: rest =>
    if c1 = US then []
    else
      match rest with
      | [] => []
      | c2 :: rest2 =>
        let di := String.mk [c1, c2]
        match get_di_info di with
        | (field_name, some n) =>
          if rest2.length < n then
            [⟨di, String.mk rest2, field_name⟩]
          else
            ⟨di, String.mk (rest2.take n), field_name⟩ ::
              parse_message (rest2.drop n)
        | (field_name, none) =>
          let value := rest2.takeWhile notSeparator
          match hrest : rest2.dropWhile notSeparator with
          | [] => [⟨di, String.mk value, field_name⟩]
          | sep :: rest4 =>
            if sep = GS ∨ sep = RS then
              have : rest4.length < rest2.length + 2 := by
                have h := length_dropWhile_le notSeparator rest2
                rw [hrest] at h
                simp only [List.length_cons] at h
                omega
              ⟨di, String.mk value, field_name⟩ :: parse_message rest4
            else
              have : (sep :: rest4).length < rest2.length + 2 := by
                have h := length_dropWhile_le notSeparator rest2
                rw [hrest] at h
                simp only [List.length_cons] at h ⊢
                omega
              ⟨di, String.mk value, field_name⟩ :: parse_message (sep :: rest4)
termination_by l => l.length
decreasing_by
  · simp only [List.length_cons, List.length_drop]
    omega
  · simp only [List.length_cons]
    omega
  · simp only [List.length_cons] at this ⊢
    omega

/-- Complete parsed 2D-DOC barcode data, src/src/modules/twod_doc.py
class TwoDocData (the convenience accessors are not needed by any
claim). -/
structure TwoDocData where
  header : TwoDocHeader
  fields : List TwoDocField
  signature : Option (List Char)
  raw_message : List Char
deriving DecidableEq

/-- Parse a complete 2D-DOC barcode, src/src/modules/twod_doc.py
parse_twod_doc: parse the header, split the remainder at the first US
into message zone and signature payload (absent when there is no US,
and also when the payload after US is empty, because the source guards
the encode with a truthiness test), and parse the message zone.  The
second version lookup cannot fail because parse_header validated the
version; the impossible branch maps to none. -/
def parse_twod_doc (raw_data : List Char) : Option TwoDocData :=
  match parse_header raw_data with
  | none => none
  | some header =>
    match HEADER_SIZES.find? (fun e => e.1.toList == header.version) with
    | none => none
    | some e =>
      let rest := raw_data.drop e.2
      let message_data := rest.takeWhile (fun ch => !(ch == US))
      match rest.dropWhile (fun ch => !(ch == US)) with
      | [] =>
        some ⟨header, parse_message message_data, none, message_data⟩
      | _us :: sig =>
        some ⟨header, parse_message message_data,
          if sig = [] then none else some sig, message_data⟩

/-! ## Analyzer fan-out (src/src/analyzer.py)

TrustyFileAnalyzer.analyze runs the analysis modules in a fixed
sequence, appending each ModuleResult to a list, and finally calls
create_analysis_result.  There is no exception handling around the
module calls: a module that raises propagates its exception out of
analyze.  Each module invocation is embedded as an Except value (ok
with its ModuleResult, or error with the raised exception), and the
sequencing of calls as the propagation below. -/

/-- Sequential module execution: results are collected in order; the
first raised exception aborts the remaining calls and propagates. -/
def run_modules :
    List (Except String ModuleResult) → Except String (List ModuleResult)
  | [] => Except.ok []
  | Except.error e :: _ => Except.error e
  | Except.ok m :: rest =>
    match run_modules rest with
    | Except.error e => Except.error e
    | Except.ok ms => Except.ok (m :: ms)

/-- Embedding of TrustyFileAnalyzer.analyze after input validation and
extraction: run the module sequence, then combine with
create_analysis_result; a module exception propagates. -/
def analyze (file_hash : String)
    (module_runs : List (Except String ModuleResult)) (analysis_time_ms : ℤ) :
    Except String AnalysisResult :=
  match run_modules module_runs with
  | Except.error e => Except.error e
  | Except.ok module_results =>
    Except.ok (create_analysis_result file_hash module_results analysis_time_ms)

/-! ## Helper lemmas on rounding and clamping -/

theorem pyRound_nonpos {q : ℚ} (h : q ≤ 0) : pyRound q ≤ 0 := by
  rcases eq_or_lt_of_le h with h0 | h0
  · subst h0
    have h1 := pyRound_intCast 0
    simp only [Int.cast_zero] at h1
    omega
  · have hf : ⌊q⌋ < 0 := by
      by_contra hc
      push_neg at hc
      exact absurd (Int.floor_nonneg.mp hc) (by linarith)
    have := pyRound_le_floor_add_one q
    omega

theorem le_pyRound_of_le {q : ℚ} {n : ℤ} (h : (n : ℚ) ≤ q) : n ≤ pyRound q := by
  have hf : n ≤ ⌊q⌋ := Int.le_floor.mpr h
  have := floor_le_pyRound q
  omega

theorem pyRound_le_of_lt {q : ℚ} {n : ℤ} (h : q < (n : ℚ)) : pyRound q ≤ n := by
  have hf : ⌊q⌋ < n := Int.floor_lt.mpr h
  have := pyRound_le_floor_add_one q
  omega

/-- Rounding and clamping to the integer interval [0, 100] commute. -/
theorem pyRound_clamp (q : ℚ) :
    pyRound (max 0 (min 100 q)) = min 100 (max 0 (pyRound q)) := by
  rcases le_or_lt q 0 with h0 | h0
  · rw [min_eq_right (by linarith : q ≤ (100 : ℚ)), max_eq_left h0]
    have h1 : pyRound ((0 : ℚ)) = 0 := by
      have := pyRound_intCast 0
      simpa using this
    have h2 : pyRound q ≤ 0 := pyRound_nonpos h0
    omega
  rcases le_or_lt (100 : ℚ) q with h100 | h100
  · rw [min_eq_left h100, max_eq_right (by linarith : (0 : ℚ) ≤ 100)]
    have h1 : pyRound ((100 : ℚ)) = 100 := by
      have := pyRound_intCast 100
      simpa using this
    have h2 : (100 : ℤ) ≤ pyRound q := le_pyRound_of_le (by exact_mod_cast h100)
    omega
  · rw [min_eq_right (le_of_lt h100), max_eq_right (le_of_lt h0)]
    have h1 : (0 : ℤ) ≤ pyRound q := le_pyRound_of_le (by exact_mod_cast le_of_lt h0)
    have h2 : pyRound q ≤ 100 := pyRound_le_of_lt (by exact_mod_cast h100)
    omega

theorem foldl_add_map_sum {α : Type} (f : α → ℚ) (l : List α) (a : ℚ) :
    l.foldl (fun acc r => acc + f r) a = a + (l.map f).sum := by
  induction l generalizing a with
  | nil => simp
  | cons x xs ih => simp [ih, add_assoc]

/-! ## Claim C2 -/

/-- Weight table as the specification states it: metadata 1.0, content
1.2, visual 0.8, fonts 0.9, images 0.8, structure 1.3, forensics 1.0,
external 1.5 and 1.0 for unknown modules.  Unlike the source dict, the
forensics entry is explicit here; the refinement theorem below shows the
two agree. -/
def specModuleWeight (m : String) : ℚ :=
  if m = "metadata" then 1.0
  else if m = "content" then 1.2
  else if m = "visual" then 0.8
  else if m = "fonts" then 0.9
  else if m = "images" then 0.8
  else if m = "structure" then 1.3
  else if m = "forensics" then 1.0
  else if m = "external" then 1.5
  else 1.0

/-- The weight lookup of the source (with its forensics fallthrough to
DEFAULT_WEIGHT) agrees with the spec weight table on every module
name. -/
theorem moduleWeight_eq_spec (m : String) : moduleWeight m = specModuleWeight m := by
  by_cases h1 : m = "metadata"
  · subst h1; rfl
  by_cases h2 : m = "content"
  · subst h2; rfl
  by_cases h3 : m = "visual"
  · subst h3; rfl
  by_cases h4 : m = "fonts"
  · subst h4; rfl
  by_cases h5 : m = "images"
  · subst h5; rfl
  by_cases h6 : m = "structure"
  · subst h6; rfl
  by_cases h7 : m = "forensics"
  · subst h7; rfl
  by_cases h8 : m = "external"
  · subst h8; rfl
  have hf : MODULE_WEIGHTS.find? (fun e => e.1 == m) = none := by
    rw [List.find?_eq_none]
    intro x hx
    fin_cases hx <;>
      simp [beq_iff_eq, Ne.symm h1, Ne.symm h2, Ne.symm h3, Ne.symm h4,
        Ne.symm h5, Ne.symm h6, Ne.symm h8]
  rw [moduleWeight, hf, specModuleWeight]
  simp [h1, h2, h3, h4, h5, h6, h7, h8, DEFAULT_WEIGHT]

/-- C2: for every non-empty list of module results the aggregate trust
score equals round of the confidence-weighted average of module scores
under the spec weight table, clamped to [0, 100]; it is 100 when the
weight-confidence mass is zero or the list is empty. -/
theorem calculate_final_score_spec (rs : List ModuleResult) :
    calculate_final_score rs =
      if rs = [] ∨ (rs.map (fun r => specModuleWeight r.module * r.confidence)).sum = 0
      then 100
      else min 100 (max 0 (pyRound (
        (rs.map (fun r => (r.score : ℚ) * specModuleWeight r.module * r.confidence)).sum /
        (rs.map (fun r => specModuleWeight r.module * r.confidence)).sum))) := by
  by_cases hnil : rs = []
  · subst hnil
    simp [calculate_final_score]
  · have hmapw : rs.map (fun r => moduleWeight r.module * r.confidence)
        = rs.map (fun r => specModuleWeight r.module * r.confidence) :=
      List.map_congr_left (fun r _ => by rw [moduleWeight_eq_spec])
    have hmaps : rs.map (fun r => (r.score : ℚ) * (moduleWeight r.module * r.confidence))
        = rs.map (fun r => (r.score : ℚ) * specModuleWeight r.module * r.confidence) :=
      List.map_congr_left (fun r _ => by rw [moduleWeight_eq_spec, mul_assoc])
    have h1 := foldl_add_map_sum
      (fun r : ModuleResult => (r.score : ℚ) * (moduleWeight r.module * r.confidence)) rs 0
    have h2 := foldl_add_map_sum
      (fun r : ModuleResult => moduleWeight r.module * r.confidence) rs 0
    rw [calculate_final_score]
    simp only [if_neg hnil, h1, h2, zero_add, hmapw, hmaps]
    by_cases hw0 : (rs.map (fun r => specModuleWeight r.module * r.confidence)).sum = 0
    · simp [hw0, hnil]
    · simp only [if_neg hw0, hnil, false_or, if_neg hw0]
      exact pyRound_clamp _

/-! ## Helper lemmas on the stable severity sort -/

theorem severity_in_filter {y : Flag} {l : List Flag} {s : Severity}
    (h : y ∈ l.filter (fun f => f.severity == s)) : y.severity = s := by
  rw [List.mem_filter] at h
  exact eq_of_beq h.2

theorem insertFlag_of_le {x : Flag} {l : List Flag}
    (h : ∀ y ∈ l, severity_order x.severity ≤ severity_order y.severity) :
    insertFlag x l = x :: l := by
  cases l with
  | nil => rfl
  | cons y ys =>
    rw [insertFlag, if_pos (h y (List.mem_cons_self y ys))]

theorem insertFlag_append_of_lt {x : Flag} {A B : List Flag}
    (h : ∀ y ∈ A, severity_order y.severity < severity_order x.severity) :
    insertFlag x (A ++ B) = A ++ insertFlag x B := by
  induction A with
  | nil => simp
  | cons a A ih =>
    have ha : ¬ severity_order x.severity ≤ severity_order a.severity := by
      have := h a (List.mem_cons_self a A)
      omega
    rw [List.cons_append, insertFlag, if_neg ha,
      ih (fun y hy => h y (List.mem_cons_of_mem a hy)), List.cons_append]

theorem insertFlag_perm (x : Flag) (l : List Flag) :
    List.Perm (insertFlag x l) (x :: l) := by
  induction l with
  | nil => rfl
  | cons y ys ih =>
    rw [insertFlag]
    split
    · rfl
    · exact List.Perm.trans (List.Perm.cons y ih) (List.Perm.swap x y ys)

theorem pySortFlags_perm (l : List Flag) : List.Perm (pySortFlags l) l := by
  induction l with
  | nil => rfl
  | cons x xs ih =>
    exact List.Perm.trans (insertFlag_perm x (pySortFlags xs)) (List.Perm.cons x ih)

theorem countP_pySortFlags (p : Flag → Bool) (l : List Flag) :
    (pySortFlags l).countP p = l.countP p :=
  (pySortFlags_perm l).countP_eq p

/-- Specification shape of a stable severity sort: the critical bucket,
then the high, medium and low buckets, each in original order. -/
def severityBuckets (l : List Flag) : List Flag :=
  l.filter (fun f => f.severity == Severity.critical)
  ++ (l.filter (fun f => f.severity == Severity.high)
  ++ (l.filter (fun f => f.severity == Severity.medium)
  ++ l.filter (fun f => f.severity == Severity.low)))

theorem pySortFlags_eq_buckets (l : List Flag) :
    pySortFlags l = severityBuckets l := by
  induction l with
  | nil => rfl
  | cons x xs ih =>
    rw [pySortFlags, ih]
    unfold severityBuckets
    set C := xs.filter (fun f => f.severity == Severity.critical) with hC
    set Hi := xs.filter (fun f => f.severity == Severity.high) with hHi
    set Me := xs.filter (fun f => f.severity == Severity.medium) with hMe
    set Lo := xs.filter (fun f => f.severity == Severity.low) with hLo
    have memC : ∀ y ∈ C, y.severity = Severity.critical := by
      intro y hy
      rw [hC] at hy
      exact severity_in_filter hy
    have memHi : ∀ y ∈ Hi, y.severity = Severity.high := by
      intro y hy
      rw [hHi] at hy
      exact severity_in_filter hy
    have memMe : ∀ y ∈ Me, y.severity = Severity.medium := by
      intro y hy
      rw [hMe] at hy
      exact severity_in_filter hy
    have memLo : ∀ y ∈ Lo, y.severity = Severity.low := by
      intro y hy
      rw [hLo] at hy
      exact severity_in_filter hy
    cases hs : x.severity
    case critical =>
      have e1 : insertFlag x (C ++ (Hi ++ (Me ++ Lo))) = x :: (C ++ (Hi ++ (Me ++ Lo))) :=
        insertFlag_of_le (fun y _ => by rw [hs]; exact Nat.zero_le _)
      rw [e1]
      simp [List.filter_cons, hs, hC, hHi, hMe, hLo]
    case high =>
      have e1 : insertFlag x (C ++ (Hi ++ (Me ++ Lo))) = C ++ insertFlag x (Hi ++ (Me ++ Lo)) :=
        insertFlag_append_of_lt (fun y hy => by rw [memC y hy, hs]; decide)
      have e2 : insertFlag x (Hi ++ (Me ++ Lo)) = x :: (Hi ++ (Me ++ Lo)) :=
        insertFlag_of_le (fun y hy => by
          rcases List.mem_append.mp hy with h | h
          · rw [hs, memHi y h]
          rcases List.mem_append.mp h with h2 | h2
          · rw [hs, memMe y h2]; decide
          · rw [hs, memLo y h2]; decide)
      rw [e1, e2]
      simp [List.filter_cons, hs, hC, hHi, hMe, hLo]
    case medium =>
      have e1 : insertFlag x (C ++ (Hi ++ (Me ++ Lo))) = C ++ insertFlag x (Hi ++ (Me ++ Lo)) :=
        insertFlag_append_of_lt (fun y hy => by rw [memC y hy, hs]; decide)
      have e2 : insertFlag x (Hi ++ (Me ++ Lo)) = Hi ++ insertFlag x (Me ++ Lo) :=
        insertFlag_append_of_lt (fun y hy => by rw [memHi y hy, hs]; decide)
      have e3 : insertFlag x (Me ++ Lo) = x :: (Me ++ Lo) :=
        insertFlag_of_le (fun y hy => by
          rcases List.mem_append.mp hy with h | h
          · rw [hs, memMe y h]
          · rw [hs, memLo y h]; decide)
      rw [e1, e2, e3]
      simp [List.filter_cons, hs, hC, hHi, hMe, hLo]
    case low =>
      have e1 : insertFlag x (C ++ (Hi ++ (Me ++ Lo))) = C ++ insertFlag x (Hi ++ (Me ++ Lo)) :=
        insertFlag_append_of_lt (fun y hy => by rw [memC y hy, hs]; decide)
      have e2 : insertFlag x (Hi ++ (Me ++ Lo)) = Hi ++ insertFlag x (Me ++ Lo) :=
        insertFlag_append_of_lt (fun y hy => by rw [memHi y hy, hs]; decide)
      have e3 : insertFlag x (Me ++ Lo) = Me ++ insertFlag x Lo :=
        insertFlag_append_of_lt (fun y hy => by rw [memMe y hy, hs]; decide)
      have e4 : insertFlag x Lo = x :: Lo :=
        insertFlag_of_le (fun y hy => by rw [hs, memLo y hy])
      rw [e1, e2, e3, e4]
      simp [List.filter_cons, hs, hC, hHi, hMe, hLo]

theorem severityBuckets_idem (l : List Flag) :
    severityBuckets (severityBuckets l) = severityBuckets l := by
  have hself : ∀ s : Severity,
      (l.filter (fun f => f.severity == s)).filter (fun f => f.severity == s)
        = l.filter (fun f => f.severity == s) := by
    intro s
    exact List.filter_eq_self.mpr (fun y hy => by
      rw [severity_in_filter hy]
      exact beq_self_eq_true s)
  have hnil : ∀ s s2 : Severity, s ≠ s2 →
      (l.filter (fun f => f.severity == s)).filter (fun f => f.severity == s2)
        = [] := by
    intro s s2 hne
    exact List.filter_eq_nil_iff.mpr (fun y hy => by
      rw [severity_in_filter hy]
      simp [hne])
  unfold severityBuckets
  simp only [List.filter_append]
  rw [hself, hself, hself, hself]
  rw [hnil _ _ (by decide), hnil _ _ (by decide), hnil _ _ (by decide),
    hnil _ _ (by decide), hnil _ _ (by decide), hnil _ _ (by decide),
    hnil _ _ (by decide), hnil _ _ (by decide), hnil _ _ (by decide),
    hnil _ _ (by decide), hnil _ _ (by decide), hnil _ _ (by decide)]
  simp

/-! ## Claim C9 -/

/-- C9: collect_all_flags returns all flags of all modules ordered by
severity, critical first, then high, medium, low, as a stable sort:
within each severity bucket the flags keep the concatenated
module-by-module insertion order; and sorting its own output again
returns the same sequence. -/
theorem collect_all_flags_stable_sort (rs : List ModuleResult) :
    collect_all_flags rs = severityBuckets (rs.flatMap (fun r => r.flags)) ∧
    pySortFlags (collect_all_flags rs) = collect_all_flags rs := by
  have h1 : collect_all_flags rs = severityBuckets (rs.flatMap (fun r => r.flags)) :=
    pySortFlags_eq_buckets _
  refine ⟨h1, ?_⟩
  rw [h1, pySortFlags_eq_buckets, severityBuckets_idem]

/-! ## Claim C1 -/

/-- C1: the critical-flag override of create_analysis_result.  With K,
H, M the counts of critical, high and medium severity flags across all
modules and S the aggregate score: when K is at least 1 the risk level
is raised to at least HIGH (it is HIGH or CRITICAL) and the trust score
is S capped at 40, reduced by 5 per high flag and 2 per medium flag,
floored at 5; when K is at least 2 the risk level is forced to CRITICAL
and the trust score is additionally capped at 19. -/
theorem create_analysis_result_critical_override
    (h : String) (rs : List ModuleResult) (t : ℤ) (r : AnalysisResult)
    (K Hc Mc : ℕ) (S : ℤ)
    (hr : r = create_analysis_result h rs t)
    (hK : K = (rs.flatMap (fun m => m.flags)).countP
      (fun f => f.severity == Severity.critical))
    (hH : Hc = (rs.flatMap (fun m => m.flags)).countP
      (fun f => f.severity == Severity.high))
    (hM : Mc = (rs.flatMap (fun m => m.flags)).countP
      (fun f => f.severity == Severity.medium))
    (hS : S = calculate_final_score rs)
    (hcrit : 1 ≤ K) :
    (r.risk_level = RiskLevel.HIGH ∨ r.risk_level = RiskLevel.CRITICAL) ∧
    r.trust_score =
      (if 2 ≤ K then min (max (min S 40 - 5 * (Hc : ℤ) - 2 * (Mc : ℤ)) 5) 19
       else max (min S 40 - 5 * (Hc : ℤ) - 2 * (Mc : ℤ)) 5) ∧
    (2 ≤ K → r.risk_level = RiskLevel.CRITICAL) := by
  have hcount : ∀ s : Severity,
      count_flags_by_severity (collect_all_flags rs) s
        = (rs.flatMap (fun m => m.flags)).countP (fun f => f.severity == s) := by
    intro s
    unfold count_flags_by_severity collect_all_flags
    exact countP_pySortFlags _ _
  subst hr hK hH hM hS
  simp only [create_analysis_result, hcount]
  constructor
  · simp only [if_pos hcrit]
    by_cases h2 : 2 ≤ (rs.flatMap (fun m => m.flags)).countP
        (fun f => f.severity == Severity.critical)
    · simp [h2]
    · simp only [if_neg h2]
      cases hrl : get_risk_level (calculate_final_score rs) <;> simp
  · constructor
    · simp only [if_pos hcrit]
    · intro h2
      simp [h2]

/-- Witness for C1 at a concrete input: one metadata module with score
50, confidence 1, one critical and one high flag. -/
theorem create_analysis_result_critical_override_witness :
    ((create_analysis_result "h"
        [⟨"metadata", [⟨Severity.critical, "X", "x"⟩, ⟨Severity.high, "Y", "y"⟩], 50, 1⟩]
        0).risk_level = RiskLevel.HIGH ∨
     (create_analysis_result "h"
        [⟨"metadata", [⟨Severity.critical, "X", "x"⟩, ⟨Severity.high, "Y", "y"⟩], 50, 1⟩]
        0).risk_level = RiskLevel.CRITICAL) ∧
    (create_analysis_result "h"
        [⟨"metadata", [⟨Severity.critical, "X", "x"⟩, ⟨Severity.high, "Y", "y"⟩], 50, 1⟩]
        0).trust_score =
      (if 2 ≤ (1 : ℕ) then min (max (min (50 : ℤ) 40 - 5 * ((1 : ℕ) : ℤ) - 2 * ((0 : ℕ) : ℤ)) 5) 19
       else max (min (50 : ℤ) 40 - 5 * ((1 : ℕ) : ℤ) - 2 * ((0 : ℕ) : ℤ)) 5) ∧
    (2 ≤ (1 : ℕ) →
      (create_analysis_result "h"
        [⟨"metadata", [⟨Severity.critical, "X", "x"⟩, ⟨Severity.high, "Y", "y"⟩], 50, 1⟩]
        0).risk_level = RiskLevel.CRITICAL) := by
  refine create_analysis_result_critical_override "h" _ 0 _ 1 1 0 50 rfl
    (by decide) (by decide) (by decide) ?_ (by norm_num)
  have h50 : pyRound ((50 : ℚ)) = (50 : ℤ) := by exact_mod_cast pyRound_intCast 50
  rw [calculate_final_score]
  norm_num [moduleWeight, MODULE_WEIGHTS]
  omega

/-! ## Helper lemmas for the Luhn checks -/

/-- Sum of the Luhn-transformed digits written as the specification
words it: over the sequence of (0-indexed position, digit) pairs,
doubling the digits at positions congruent to the given parity and
subtracting 9 when the double exceeds 9. -/
def luhnSumSpec (parity : ℕ) (s : List Char) : ℕ :=
  (s.enum.map (fun p =>
    if p.1 % 2 = parity then
      (if 9 < 2 * digitVal p.2 then 2 * digitVal p.2 - 9 else 2 * digitVal p.2)
    else digitVal p.2)).sum

theorem luhnGo_eq_enumFrom (parity : ℕ) (s : List Char) : ∀ i : ℕ,
    luhnGo parity i s =
      ((List.enumFrom i s).map (fun p =>
        if p.1 % 2 = parity then
          (if 9 < 2 * digitVal p.2 then 2 * digitVal p.2 - 9 else 2 * digitVal p.2)
        else digitVal p.2)).sum := by
  induction s with
  | nil => intro i; simp [luhnGo]
  | cons c cs ih =>
    intro i
    rw [luhnGo, ih (i + 1)]
    simp [List.enumFrom]

theorem luhnGo_eq_spec (parity : ℕ) (s : List Char) :
    luhnGo parity 0 s = luhnSumSpec parity s := by
  rw [luhnSumSpec, List.enum, luhnGo_eq_enumFrom]

/-! ## Claim C3 -/

/-- C3: validate_siren_checksum accepts exactly the 9-digit strings
whose Luhn sum with 0-indexed odd positions doubled is divisible by 10,
validate_siret_checksum accepts exactly the 14-digit strings with even
positions doubled; wrong length or a non-digit character is rejected;
and the three concrete examples from the spec behave as stated. -/
theorem validate_siren_siret_luhn :
    (∀ s : List Char, validate_siren_checksum s = true ↔
      s.length = 9 ∧ (∀ c ∈ s, isDigitChar c = true) ∧ luhnSumSpec 1 s % 10 = 0) ∧
    (∀ s : List Char, validate_siret_checksum s = true ↔
      s.length = 14 ∧ (∀ c ∈ s, isDigitChar c = true) ∧ luhnSumSpec 0 s % 10 = 0) ∧
    validate_siret_checksum ("55208131766522".toList) = true ∧
    validate_siret_checksum ("55208131766523".toList) = false ∧
    validate_siret_checksum ("5520813176652A".toList) = false := by
  refine ⟨?_, ?_, by decide, by decide, by decide⟩
  · intro s
    rw [validate_siren_checksum]
    by_cases h : s.length = 9 ∧ (∀ c ∈ s, isDigitChar c = true)
    · have hb : (s.length = 9 && s.all isDigitChar) = true := by
        simp only [List.all_eq_true, h.1, Bool.and_eq_true, decide_eq_true_eq]
        exact ⟨trivial, h.2⟩
      rw [if_pos hb, luhnGo_eq_spec]
      simp only [decide_eq_true_eq]
      exact ⟨fun hsum => ⟨h.1, h.2, hsum⟩, fun hcon => hcon.2.2⟩
    · have hb : ¬ ((s.length = 9 && s.all isDigitChar) = true) := by
        simp only [Bool.and_eq_true, decide_eq_true_eq, List.all_eq_true]
        intro hcon
        exact h ⟨hcon.1, hcon.2⟩
      rw [if_neg hb]
      exact ⟨fun hcon => (Bool.false_ne_true hcon).elim,
             fun hcon => absurd ⟨hcon.1, hcon.2.1⟩ h⟩
  · intro s
    rw [validate_siret_checksum]
    by_cases h : s.length = 14 ∧ (∀ c ∈ s, isDigitChar c = true)
    · have hb : (s.length = 14 && s.all isDigitChar) = true := by
        simp only [List.all_eq_true, h.1, Bool.and_eq_true, decide_eq_true_eq]
        exact ⟨trivial, h.2⟩
      rw [if_pos hb, luhnGo_eq_spec]
      simp only [decide_eq_true_eq]
      exact ⟨fun hsum => ⟨h.1, h.2, hsum⟩, fun hcon => hcon.2.2⟩
    · have hb : ¬ ((s.length = 14 && s.all isDigitChar) = true) := by
        simp only [Bool.and_eq_true, decide_eq_true_eq, List.all_eq_true]
        intro hcon
        exact h ⟨hcon.1, hcon.2⟩
      rw [if_neg hb]
      exact ⟨fun hcon => (Bool.false_ne_true hcon).elim,
             fun hcon => absurd ⟨hcon.1, hcon.2.1⟩ h⟩

/-! ## Helper lemmas for the VAT check -/

theorem toUpperChar_of_digit {c : Char} (h : isDigitChar c = true) :
    toUpperChar c = c := by
  rw [isDigitChar] at h
  simp only [Bool.and_eq_true, decide_eq_true_eq] at h
  rw [toUpperChar, if_neg]
  omega

theorem digit_ne_space {c : Char} (h : isDigitChar c = true) : c ≠ ' ' := by
  rw [isDigitChar] at h
  simp only [Bool.and_eq_true, decide_eq_true_eq] at h
  intro hc
  subst hc
  simp at h

theorem digit_ne_dot {c : Char} (h : isDigitChar c = true) : c ≠ '.' := by
  rw [isDigitChar] at h
  simp only [Bool.and_eq_true, decide_eq_true_eq] at h
  intro hc
  subst hc
  simp at h

theorem cleanVat_of_digits {dd siren : List Char}
    (hdd : ∀ c ∈ dd, isDigitChar c = true)
    (hsiren : ∀ c ∈ siren, isDigitChar c = true) :
    cleanVat ('F' :: 'R' :: (dd ++ siren)) = 'F' :: 'R' :: (dd ++ siren) := by
  have hdig : ∀ c ∈ dd ++ siren, isDigitChar c = true := by
    intro c hc
    rcases List.mem_append.mp hc with h | h
    · exact hdd c h
    · exact hsiren c h
  rw [cleanVat]
  have hmap : ('F' :: 'R' :: (dd ++ siren)).map toUpperChar
      = 'F' :: 'R' :: (dd ++ siren) := by
    simp only [List.map_cons]
    rw [show toUpperChar 'F' = 'F' from rfl, show toUpperChar 'R' = 'R' from rfl,
      List.map_congr_left (fun c hc => toUpperChar_of_digit (hdig c hc)),
      List.map_id']
  rw [hmap]
  have hsp : ('F' :: 'R' :: (dd ++ siren)).filter (fun c => c ≠ ' ')
      = 'F' :: 'R' :: (dd ++ siren) := by
    apply List.filter_eq_self.mpr
    intro a ha
    simp only [List.mem_cons] at ha
    rcases ha with h | h | h
    · subst h; decide
    · subst h; decide
    · simp only [ne_eq, decide_eq_true_eq]
      exact digit_ne_space (hdig a h)
  rw [hsp]
  apply List.filter_eq_self.mpr
  intro a ha
  simp only [List.mem_cons] at ha
  rcases ha with h | h | h
  · subst h; decide
  · subst h; decide
  · simp only [ne_eq, decide_eq_true_eq]
    exact digit_ne_dot (hdig a h)

/-! ## Claim C4 -/

/-- C4: for a 2-digit string dd and a 9-digit string siren,
validate_french_vat on FR followed by dd and siren holds exactly when
the SIREN checksum holds and the numeric value of dd is
(12 + 3 (siren mod 97)) mod 97; and the three concrete examples of the
spec behave as stated. -/
theorem validate_french_vat_spec :
    (∀ dd siren : List Char, dd.length = 2 → siren.length = 9 →
      (∀ c ∈ dd, isDigitChar c = true) → (∀ c ∈ siren, isDigitChar c = true) →
      (validate_french_vat ('F' :: 'R' :: (dd ++ siren)) = true ↔
        validate_siren_checksum siren = true ∧
        digitsVal dd = (12 + 3 * (digitsVal siren % 97)) % 97)) ∧
    validate_french_vat ("FR03552081317".toList) = true ∧
    validate_french_vat ("FR99552081317".toList) = false ∧
    validate_french_vat ("DE03552081317".toList) = false := by
  refine ⟨?_, by decide, by decide, by decide⟩
  intro dd siren hlen2 hlen9 hdd hsiren
  rw [validate_french_vat]
  rw [cleanVat_of_digits hdd hsiren]
  have hmatch : matchesFrVat ('F' :: 'R' :: (dd ++ siren)) = true := by
    rw [matchesFrVat]
    simp only [List.length_cons, List.length_append, hlen2, hlen9,
      List.take_succ_cons, List.take_zero, List.drop_succ_cons, List.drop_zero]
    simp [List.all_eq_true]
    exact ⟨hdd, hsiren⟩
  rw [if_pos hmatch]
  have hdrop2 : ('F' :: 'R' :: (dd ++ siren)).drop 2 = dd ++ siren := rfl
  have htake : (('F' :: 'R' :: (dd ++ siren)).drop 2).take 2 = dd := by
    rw [hdrop2, List.take_left' hlen2]
  have hdrop4 : ('F' :: 'R' :: (dd ++ siren)).drop 4 = siren := by
    have h1 : ('F' :: 'R' :: (dd ++ siren)).drop 4 = (dd ++ siren).drop 2 := by
      simp [List.drop_drop]
    rw [h1, List.drop_left' hlen2]
  rw [htake, hdrop4]
  by_cases hv : validate_siren_checksum siren = true
  · rw [if_pos hv]
    simp [hv]
  · rw [if_neg hv]
    simp [hv]

/-- Witness for C4 at the concrete check digits 03 and SIREN 552081317
of the spec example. -/
theorem validate_french_vat_spec_witness :
    validate_french_vat ('F' :: 'R' :: ("03".toList ++ "552081317".toList)) = true ↔
      validate_siren_checksum ("552081317".toList) = true ∧
      digitsVal ("03".toList) =
        (12 + 3 * (digitsVal ("552081317".toList) % 97)) % 97 :=
  validate_french_vat_spec.1 ("03".toList) ("552081317".toList)
    (by decide) (by decide) (by decide) (by decide)

/-! ## Helper lemmas on the calendar -/

theorem daysInMonth_pos (y m : ℕ) : 1 ≤ daysInMonth y m := by
  rw [daysInMonth]
  split_ifs <;> omega

theorem daysBeforeMonth_succ {y m : ℕ} (h1 : 1 ≤ m) (h11 : m ≤ 11) :
    daysBeforeMonth y (m + 1) = daysBeforeMonth y m + daysInMonth y m := by
  interval_cases m <;>
    · rw [daysBeforeMonth, daysBeforeMonth, daysInMonth]
      cases hl : isLeapYear y <;> simp [hl]

theorem leap_count_succ {y : ℕ} (hy : 1 ≤ y) :
    y / 4 + y / 400 + (y - 1) / 100 =
      (y - 1) / 4 + (y - 1) / 400 + y / 100
        + (if isLeapYear y then 1 else 0) := by
  rw [isLeapYear]
  by_cases h4 : y % 4 = 0 <;> by_cases h100 : y % 100 = 0 <;>
    by_cases h400 : y % 400 = 0 <;>
      simp [h4, h100, h400] <;> omega

/-- Stepping one civil day forward advances the day ordinal by one and
preserves validity. -/
theorem toOrdinal_nextDay {d : PyDate} (hd : validDate d) :
    toOrdinal (nextDay d) = toOrdinal d + 1 ∧ validDate (nextDay d) := by
  obtain ⟨y, m, day⟩ := d
  obtain ⟨hy, hm1, hm12, hd1, hdm⟩ := hd
  simp only at hy hm1 hm12 hd1 hdm
  rw [nextDay]
  simp only
  by_cases hlt : day < daysInMonth y m
  · rw [if_pos hlt]
    constructor
    · rw [toOrdinal, toOrdinal]
      simp only
      omega
    · rw [validDate]
      dsimp only
      omega
  · rw [if_neg hlt]
    have hde : day = daysInMonth y m := by omega
    by_cases hm : m < 12
    · rw [if_pos hm]
      constructor
      · have key := daysBeforeMonth_succ (y := y) hm1 (by omega)
        rw [toOrdinal, toOrdinal]
        simp only
        omega
      · have hpos := daysInMonth_pos y (m + 1)
        rw [validDate]
        dsimp only
        omega
    · have hme : m = 12 := by omega
      subst hme
      have hdm31 : daysInMonth y 12 = 31 := by rw [daysInMonth]; norm_num
      rw [if_neg (by norm_num : ¬ (12 : ℕ) < 12)]
      constructor
      · have key := leap_count_succ hy
        rw [toOrdinal, toOrdinal]
        simp only
        rw [daysBeforeMonth, daysBeforeMonth]
        norm_num
        split_ifs at key ⊢ <;> omega
      · have hpos := daysInMonth_pos (y + 1) 1
        rw [validDate]
        dsimp only
        omega

theorem addDays_valid_ordinal (n : ℕ) :
    validDate (addDays DATE_REFERENCE n) ∧
    toOrdinal (addDays DATE_REFERENCE n) = toOrdinal DATE_REFERENCE + n := by
  induction n with
  | zero =>
    refine ⟨by decide, ?_⟩
    rw [addDays, Function.iterate_zero_apply]
    omega
  | succ n ih =>
    have hstep := toOrdinal_nextDay ih.1
    rw [addDays, Function.iterate_succ_apply']
    rw [addDays] at ih hstep
    exact ⟨hstep.2, by omega⟩

theorem days_since_2000_addDays (n : ℕ) :
    days_since_2000 (addDays DATE_REFERENCE n) = n := by
  have h := addDays_valid_ordinal n
  rw [days_since_2000]
  omega

/-! ## Helper lemmas on the hex encoding -/

theorem hexDigitValue_natToHexDigitChar {k : ℕ} (hk : k < 16) :
    hexDigitValue (natToHexDigitChar k) = some k := by
  interval_cases k <;> decide

theorem toUpperChar_natToHexDigitChar {k : ℕ} (hk : k < 16) :
    toUpperChar (natToHexDigitChar k) = natToHexDigitChar k := by
  interval_cases k <;> decide

theorem map_toUpperChar_toHex4 (n : ℕ) :
    (toHex4 n).map toUpperChar = toHex4 n := by
  rw [toHex4]
  simp only [List.map_cons, List.map_nil]
  rw [toUpperChar_natToHexDigitChar (Nat.mod_lt _ (by norm_num)),
    toUpperChar_natToHexDigitChar (Nat.mod_lt _ (by norm_num)),
    toUpperChar_natToHexDigitChar (Nat.mod_lt _ (by norm_num)),
    toUpperChar_natToHexDigitChar (Nat.mod_lt _ (by norm_num))]

theorem hexStringValue_toHex4 {n : ℕ} (hn : n < 65536) :
    hexStringValue (toHex4 n) = some n := by
  have h1 : hexDigitValue (natToHexDigitChar (n / 4096 % 16)) = some (n / 4096 % 16) :=
    hexDigitValue_natToHexDigitChar (Nat.mod_lt _ (by norm_num))
  have h2 : hexDigitValue (natToHexDigitChar (n / 256 % 16)) = some (n / 256 % 16) :=
    hexDigitValue_natToHexDigitChar (Nat.mod_lt _ (by norm_num))
  have h3 : hexDigitValue (natToHexDigitChar (n / 16 % 16)) = some (n / 16 % 16) :=
    hexDigitValue_natToHexDigitChar (Nat.mod_lt _ (by norm_num))
  have h4 : hexDigitValue (natToHexDigitChar (n % 16)) = some (n % 16) :=
    hexDigitValue_natToHexDigitChar (Nat.mod_lt _ (by norm_num))
  rw [toHex4, hexStringValue, if_neg (by simp)]
  simp only [hexFold, h1, h2, h3, h4]
  congr 1
  omega

theorem toHex4_ne_FFFF {n : ℕ} (hn : n < 65535) :
    toHex4 n ≠ "FFFF".toList := by
  intro he
  have h1 := hexStringValue_toHex4 (show n < 65536 by omega)
  rw [he] at h1
  rw [show hexStringValue ("FFFF".toList) = some 65535 from by decide] at h1
  simp only [Option.some.injEq] at h1
  omega

/-! ## Claim C8 -/

/-- C8 (amended): hex_date_to_date of FFFF is absent; and for every
date in the range reachable from 2000-01-01 by at most 65534 day steps
(that is, every date from 2000-01-01 through 2179-06-05), decoding the
4-character uppercase hex encoding of its day count since 2000-01-01
yields the date back.  The day count 65535, whose date is 2179-06-06,
is excluded: its encoding is the absence marker FFFF (see the
counterexample theorem). -/
theorem hex_date_round_trip :
    hex_date_to_date ("FFFF".toList) = none ∧
    ∀ n : ℕ, n ≤ 65534 →
      days_since_2000 (addDays DATE_REFERENCE n) = n ∧
      hex_date_to_date (toHex4 (days_since_2000 (addDays DATE_REFERENCE n)))
        = some (addDays DATE_REFERENCE n) := by
  refine ⟨by decide, ?_⟩
  intro n hn
  refine ⟨days_since_2000_addDays n, ?_⟩
  rw [days_since_2000_addDays n, hex_date_to_date, map_toUpperChar_toHex4,
    if_neg (toHex4_ne_FFFF (by omega)), hexStringValue_toHex4 (by omega)]

/-- Witness for C8 at the concrete day count 10847 (hex 2A5F, the
docstring example of the source). -/
theorem hex_date_round_trip_witness :
    (10847 : ℕ) ≤ 65534 ∧
    (days_since_2000 (addDays DATE_REFERENCE 10847) = 10847 ∧
      hex_date_to_date (toHex4 (days_since_2000 (addDays DATE_REFERENCE 10847)))
        = some (addDays DATE_REFERENCE 10847)) ∧
    toHex4 10847 = "2A5F".toList ∧
    days_since_2000 ⟨2029, 9, 12⟩ = 10847 :=
  ⟨by norm_num, hex_date_round_trip.2 10847 (by norm_num), by decide, by decide⟩

/-- Counterexample for C8 as stated: the date 2179-06-06 lies 65535
days after 2000-01-01, its 4-character uppercase hex encoding is the
absence marker FFFF, and decoding it yields none, not the date. -/
theorem hex_date_round_trip_cex :
    validDate ⟨2179, 6, 6⟩ ∧
    days_since_2000 ⟨2179, 6, 6⟩ = 65535 ∧
    toHex4 (days_since_2000 ⟨2179, 6, 6⟩) = "FFFF".toList ∧
    hex_date_to_date (toHex4 (days_since_2000 ⟨2179, 6, 6⟩)) = none := by
  refine ⟨by decide, by decide, by decide, ?_⟩
  rw [show toHex4 (days_since_2000 ⟨2179, 6, 6⟩) = "FFFF".toList from by decide]
  decide

/-! ## Helper lemmas for header slicing -/

theorem drop_add (l : List Char) (k n : ℕ) :
    l.drop (k + n) = (l.drop k).drop n := by
  rw [List.drop_drop]

theorem take_all_of_length {l : List Char} {n : ℕ} (h : l.length = n) :
    l.take n = l := by
  rw [← h, List.take_length]

/-! ## Claim C7 -/

/-- C7: parse_header accepts only strings beginning with DC, fails on a
version outside the HEADER_SIZES table, and parsing a header built from
given field values (the generator of spec section 4.11) reconstructs
every one of those values, with the emission and signature hex fields
reconstructed through hex date decoding, the perimeter present for
versions 03 and 04 and the country for version 04. -/
theorem parse_header_spec :
    (∀ s : List Char, s.take 2 ≠ HEADER_MARKER.toList → parse_header s = none) ∧
    (∀ s : List Char,
      HEADER_SIZES.find? (fun e => e.1.toList == (s.drop 2).take 2) = none →
      parse_header s = none) ∧
    (∀ version ca cert eh sh ty pe co : List Char,
      (version = "01".toList ∨ version = "02".toList ∨
       version = "03".toList ∨ version = "04".toList) →
      ca.length = 4 → cert.length = 4 → eh.length = 4 → sh.length = 4 →
      ty.length = 2 → pe.length = 2 → co.length = 2 →
      parse_header (build_header version ca cert eh sh ty pe co) =
        some { raw := build_header version ca cert eh sh ty pe co
               version := version
               ca_id := ca
               cert_id := cert
               emission_date := hex_date_to_date eh
               signature_date := hex_date_to_date sh
               document_type := ty
               perimeter := if version = "03".toList ∨ version = "04".toList
                            then some pe else none
               country := if version = "04".toList then some co else none }) := by
  refine ⟨?_, ?_, ?_⟩
  · intro s h
    rw [parse_header]
    by_cases h1 : s.length < 4
    · rw [if_pos h1]
    · rw [if_neg h1, if_pos h]
  · intro s hfind
    rw [parse_header]
    by_cases h1 : s.length < 4
    · rw [if_pos h1]
    · rw [if_neg h1]
      by_cases h2 : s.take 2 ≠ HEADER_MARKER.toList
      · rw [if_pos h2]
      · rw [if_neg h2]
        simp only [hfind]
  · intro version ca cert eh sh ty pe co hv hca hcert heh hsh hty hpe hco
    rcases hv with hv | hv | hv | hv <;> subst hv
    · rw [build_header, if_neg (by decide), if_neg (by decide),
        if_neg (by decide), if_neg (by decide)]
      rw [show ("01".toList : List Char) = ['0', '1'] from rfl]
      simp only [List.append_nil, List.cons_append, List.nil_append]
      set rest := ca ++ (cert ++ (eh ++ (sh ++ ty))) with hrest
      have hlen : ('D' :: 'C' :: '0' :: '1' :: rest).length = 22 := by
        rw [hrest]
        simp [hca, hcert, heh, hsh, hty]
      rw [parse_header]
      rw [if_neg (by omega),
        if_neg (by rw [show HEADER_MARKER.toList = ['D', 'C'] from rfl]; simp)]
      have hfind : HEADER_SIZES.find?
          (fun e => e.1.toList == ((('D' :: 'C' :: '0' :: '1' :: rest).drop 2).take 2))
          = some ("01", 22) := rfl
      simp only [hfind]
      rw [if_neg (by omega)]
      have e4 : ('D' :: 'C' :: '0' :: '1' :: rest).drop 4 = rest := rfl
      have e8 : ('D' :: 'C' :: '0' :: '1' :: rest).drop 8
          = cert ++ (eh ++ (sh ++ ty)) := by
        rw [show (8 : ℕ) = 4 + 4 from rfl, drop_add, e4, hrest, List.drop_left' hca]
      have e12 : ('D' :: 'C' :: '0' :: '1' :: rest).drop 12 = eh ++ (sh ++ ty) := by
        rw [show (12 : ℕ) = 8 + 4 from rfl, drop_add, e8, List.drop_left' hcert]
      have e16 : ('D' :: 'C' :: '0' :: '1' :: rest).drop 16 = sh ++ ty := by
        rw [show (16 : ℕ) = 12 + 4 from rfl, drop_add, e12, List.drop_left' heh]
      have e20 : ('D' :: 'C' :: '0' :: '1' :: rest).drop 20 = ty := by
        rw [show (20 : ℕ) = 16 + 4 from rfl, drop_add, e16, List.drop_left' hsh]
      rw [take_all_of_length hlen, e4, e8, e12, e16, e20]
      rw [hrest, List.take_left' hca, List.take_left' hcert, List.take_left' heh,
        List.take_left' hsh, take_all_of_length hty]
      rfl
    · rw [build_header, if_neg (by decide), if_neg (by decide),
        if_neg (by decide), if_neg (by decide)]
      rw [show ("02".toList : List Char) = ['0', '2'] from rfl]
      simp only [List.append_nil, List.cons_append, List.nil_append]
      set rest := ca ++ (cert ++ (eh ++ (sh ++ ty))) with hrest
      have hlen : ('D' :: 'C' :: '0' :: '2' :: rest).length = 22 := by
        rw [hrest]
        simp [hca, hcert, heh, hsh, hty]
      rw [parse_header]
      rw [if_neg (by omega),
        if_neg (by rw [show HEADER_MARKER.toList = ['D', 'C'] from rfl]; simp)]
      have hfind : HEADER_SIZES.find?
          (fun e => e.1.toList == ((('D' :: 'C' :: '0' :: '2' :: rest).drop 2).take 2))
          = some ("02", 22) := rfl
      simp only [hfind]
      rw [if_neg (by omega)]
      have e4 : ('D' :: 'C' :: '0' :: '2' :: rest).drop 4 = rest := rfl
      have e8 : ('D' :: 'C' :: '0' :: '2' :: rest).drop 8
          = cert ++ (eh ++ (sh ++ ty)) := by
        rw [show (8 : ℕ) = 4 + 4 from rfl, drop_add, e4, hrest, List.drop_left' hca]
      have e12 : ('D' :: 'C' :: '0' :: '2' :: rest).drop 12 = eh ++ (sh ++ ty) := by
        rw [show (12 : ℕ) = 8 + 4 from rfl, drop_add, e8, List.drop_left' hcert]
      have e16 : ('D' :: 'C' :: '0' :: '2' :: rest).drop 16 = sh ++ ty := by
        rw [show (16 : ℕ) = 12 + 4 from rfl, drop_add, e12, List.drop_left' heh]
      have e20 : ('D' :: 'C' :: '0' :: '2' :: rest).drop 20 = ty := by
        rw [show (20 : ℕ) = 16 + 4 from rfl, drop_add, e16, List.drop_left' hsh]
      rw [take_all_of_length hlen, e4, e8, e12, e16, e20]
      rw [hrest, List.take_left' hca, List.take_left' hcert, List.take_left' heh,
        List.take_left' hsh, take_all_of_length hty]
      rfl
    · rw [build_header, if_pos (by decide), if_neg (by decide),
        if_pos (by decide), if_neg (by decide)]
      rw [show ("03".toList : List Char) = ['0', '3'] from rfl]
      simp only [List.append_nil, List.cons_append, List.nil_append]
      set rest := ca ++ (cert ++ (eh ++ (sh ++ (ty ++ pe)))) with hrest
      have hlen : ('D' :: 'C' :: '0' :: '3' :: rest).length = 24 := by
        rw [hrest]
        simp [hca, hcert, heh, hsh, hty, hpe]
      rw [parse_header]
      rw [if_neg (by omega),
        if_neg (by rw [show HEADER_MARKER.toList = ['D', 'C'] from rfl]; simp)]
      have hfind : HEADER_SIZES.find?
          (fun e => e.1.toList == ((('D' :: 'C' :: '0' :: '3' :: rest).drop 2).take 2))
          = some ("03", 24) := rfl
      simp only [hfind]
      rw [if_neg (by omega)]
      have e4 : ('D' :: 'C' :: '0' :: '3' :: rest).drop 4 = rest := rfl
      have e8 : ('D' :: 'C' :: '0' :: '3' :: rest).drop 8
          = cert ++ (eh ++ (sh ++ (ty ++ pe))) := by
        rw [show (8 : ℕ) = 4 + 4 from rfl, drop_add, e4, hrest, List.drop_left' hca]
      have e12 : ('D' :: 'C' :: '0' :: '3' :: rest).drop 12 = eh ++ (sh ++ (ty ++ pe)) := by
        rw [show (12 : ℕ) = 8 + 4 from rfl, drop_add, e8, List.drop_left' hcert]
      have e16 : ('D' :: 'C' :: '0' :: '3' :: rest).drop 16 = sh ++ (ty ++ pe) := by
        rw [show (16 : ℕ) = 12 + 4 from rfl, drop_add, e12, List.drop_left' heh]
      have e20 : ('D' :: 'C' :: '0' :: '3' :: rest).drop 20 = ty ++ pe := by
        rw [show (20 : ℕ) = 16 + 4 from rfl, drop_add, e16, List.drop_left' hsh]
      have e22 : ('D' :: 'C' :: '0' :: '3' :: rest).drop 22 = pe := by
        rw [show (22 : ℕ) = 20 + 2 from rfl, drop_add, e20, List.drop_left' hty]
      rw [take_all_of_length hlen, e4, e8, e12, e16, e20, e22]
      rw [hrest, List.take_left' hca, List.take_left' hcert, List.take_left' heh,
        List.take_left' hsh, List.take_left' hty, take_all_of_length hpe]
      rfl
    · rw [build_header, if_pos (by decide), if_pos (by decide),
        if_pos (by decide), if_pos (by decide)]
      rw [show ("04".toList : List Char) = ['0', '4'] from rfl]
      simp only [List.append_nil, List.cons_append, List.nil_append]
      set rest := ca ++ (cert ++ (eh ++ (sh ++ (ty ++ (pe ++ co))))) with hrest
      have hlen : ('D' :: 'C' :: '0' :: '4' :: rest).length = 26 := by
        rw [hrest]
        simp [hca, hcert, heh, hsh, hty, hpe, hco]
      rw [parse_header]
      rw [if_neg (by omega),
        if_neg (by rw [show HEADER_MARKER.toList = ['D', 'C'] from rfl]; simp)]
      have hfind : HEADER_SIZES.find?
          (fun e => e.1.toList == ((('D' :: 'C' :: '0' :: '4' :: rest).drop 2).take 2))
          = some ("04", 26) := rfl
      simp only [hfind]
      rw [if_neg (by omega)]
      have e4 : ('D' :: 'C' :: '0' :: '4' :: rest).drop 4 = rest := rfl
      have e8 : ('D' :: 'C' :: '0' :: '4' :: rest).drop 8
          = cert ++ (eh ++ (sh ++ (ty ++ (pe ++ co)))) := by
        rw [show (8 : ℕ) = 4 + 4 from rfl, drop_add, e4, hrest, List.drop_left' hca]
      have e12 : ('D' :: 'C' :: '0' :: '4' :: rest).drop 12
          = eh ++ (sh ++ (ty ++ (pe ++ co))) := by
        rw [show (12 : ℕ) = 8 + 4 from rfl, drop_add, e8, List.drop_left' hcert]
      have e16 : ('D' :: 'C' :: '0' :: '4' :: rest).drop 16
          = sh ++ (ty ++ (pe ++ co)) := by
        rw [show (16 : ℕ) = 12 + 4 from rfl, drop_add, e12, List.drop_left' heh]
      have e20 : ('D' :: 'C' :: '0' :: '4' :: rest).drop 20 = ty ++ (pe ++ co) := by
        rw [show (20 : ℕ) = 16 + 4 from rfl, drop_add, e16, List.drop_left' hsh]
      have e22 : ('D' :: 'C' :: '0' :: '4' :: rest).drop 22 = pe ++ co := by
        rw [show (22 : ℕ) = 20 + 2 from rfl, drop_add, e20, List.drop_left' hty]
      have e24 : ('D' :: 'C' :: '0' :: '4' :: rest).drop 24 = co := by
        rw [show (24 : ℕ) = 22 + 2 from rfl, drop_add, e22, List.drop_left' hpe]
      rw [take_all_of_length hlen, e4, e8, e12, e16, e20, e22, e24]
      rw [hrest, List.take_left' hca, List.take_left' hcert, List.take_left' heh,
        List.take_left' hsh, List.take_left' hty, List.take_left' hpe,
        take_all_of_length hco]
      rfl

/-- Witness for C7 at concrete inputs: a string not starting with DC, a
DC string with unknown version 99, and a built version-03 header. -/
theorem parse_header_spec_witness :
    parse_header ("XX1234".toList) = none ∧
    parse_header ("DC99FR0000011234123401".toList) = none ∧
    parse_header (build_header ("03".toList) ("FR00".toList) ("0001".toList)
        ("1234".toList) ("2345".toList) ("01".toList) ("01".toList) ("XX".toList)) =
      some { raw := build_header ("03".toList) ("FR00".toList) ("0001".toList)
                      ("1234".toList) ("2345".toList) ("01".toList) ("01".toList)
                      ("XX".toList)
             version := "03".toList
             ca_id := "FR00".toList
             cert_id := "0001".toList
             emission_date := hex_date_to_date ("1234".toList)
             signature_date := hex_date_to_date ("2345".toList)
             document_type := "01".toList
             perimeter := if ("03".toList : List Char) = "03".toList ∨
                             ("03".toList : List Char) = "04".toList
                          then some ("01".toList) else none
             country := if ("03".toList : List Char) = "04".toList
                        then some ("XX".toList) else none } :=
  ⟨parse_header_spec.1 _ (by decide),
   parse_header_spec.2.1 _ (by decide),
   parse_header_spec.2.2 _ _ _ _ _ _ _ _ (Or.inr (Or.inr (Or.inl rfl)))
     (by decide) (by decide) (by decide) (by decide) (by decide) (by decide)
     (by decide)⟩

/-! ## Claim C5 -/

/-- C5 (amended): TrustyFileAnalyzer.analyze wraps no exception handler
around the module calls, so a module that raises an unexpected
exception aborts the analysis: the first exception propagates out of
analyze, no degraded AnalysisResult is produced and the failing module
is not re-reported with zero confidence; when every module returns
normally, analyze returns create_analysis_result of the collected
results. -/
theorem analyze_module_error_propagates :
    (∀ (h : String) (t : ℤ) (pre post : List (Except String ModuleResult))
        (e : String),
      (∀ x ∈ pre, ∃ m, x = Except.ok m) →
      analyze h (pre ++ Except.error e :: post) t = Except.error e) ∧
    (∀ (h : String) (t : ℤ) (ms : List ModuleResult),
      analyze h (ms.map Except.ok) t =
        Except.ok (create_analysis_result h ms t)) := by
  have hrun : ∀ (pre post : List (Except String ModuleResult)) (e : String),
      (∀ x ∈ pre, ∃ m, x = Except.ok m) →
      run_modules (pre ++ Except.error e :: post) = Except.error e := by
    intro pre
    induction pre with
    | nil => intro post e _; rfl
    | cons x xs ih =>
      intro post e hx
      obtain ⟨m, hm⟩ := hx x (List.mem_cons_self x xs)
      subst hm
      rw [List.cons_append, run_modules,
        ih post e (fun y hy => hx y (List.mem_cons_of_mem _ hy))]
  have hok : ∀ ms : List ModuleResult,
      run_modules (ms.map Except.ok) = Except.ok ms := by
    intro ms
    induction ms with
    | nil => rfl
    | cons m rest ih => rw [List.map_cons, run_modules, ih]
  constructor
  · intro h t pre post e hpre
    rw [analyze, hrun pre post e hpre]
  · intro h t ms
    rw [analyze, hok ms]

/-- Witness for C5: with the second module raising, analyze returns the
error; with both returning, analyze returns the combined result. -/
theorem analyze_module_error_propagates_witness :
    analyze "h" ([Except.ok ⟨"metadata", [], 100, 1⟩] ++
      Except.error "boom" :: [Except.ok ⟨"content", [], 100, 1⟩]) 0
      = Except.error "boom" ∧
    analyze "h" ([⟨"metadata", [], 100, 1⟩,
      ⟨"content", [], 100, 1⟩].map Except.ok) 0
      = Except.ok (create_analysis_result "h"
          [⟨"metadata", [], 100, 1⟩, ⟨"content", [], 100, 1⟩] 0) :=
  ⟨analyze_module_error_propagates.1 "h" 0 _ _ "boom"
     (by intro x hx; simp only [List.mem_singleton] at hx; exact ⟨_, hx⟩),
   analyze_module_error_propagates.2 "h" 0 _⟩

/-- Counterexample for C5 as stated: with one module raising, analyze
returns the propagated exception and produces no AnalysisResult at all,
rather than logging, discarding the module and returning a degraded
result with the module reported at confidence 0 and score 100. -/
theorem analyze_module_error_cex :
    analyze "h" [Except.ok ⟨"metadata", [], 100, 1⟩,
      Except.error "boom", Except.ok ⟨"content", [], 100, 1⟩] 0
      = Except.error "boom" ∧
    (analyze "h" [Except.ok ⟨"metadata", [], 100, 1⟩,
      Except.error "boom", Except.ok ⟨"content", [], 100, 1⟩] 0).toOption
      = none := by
  constructor
  · rfl
  · rfl

/-! ## Helper lemmas for message parsing -/

theorem takeWhile_append_of_all {p : Char → Bool} {v w : List Char}
    (hv : ∀ c ∈ v, p c = true) :
    (v ++ w).takeWhile p = v ++ w.takeWhile p := by
  induction v with
  | nil => simp
  | cons a v ih =>
    rw [List.cons_append, List.takeWhile_cons,
      if_pos (hv a (List.mem_cons_self a v)),
      ih (fun c hc => hv c (List.mem_cons_of_mem a hc)), List.cons_append]

theorem dropWhile_append_of_all {p : Char → Bool} {v w : List Char}
    (hv : ∀ c ∈ v, p c = true) :
    (v ++ w).dropWhile p = w.dropWhile p := by
  induction v with
  | nil => simp
  | cons a v ih =>
    rw [List.cons_append, List.dropWhile_cons,
      if_pos (hv a (List.mem_cons_self a v)),
      ih (fun c hc => hv c (List.mem_cons_of_mem a hc))]

theorem parse_message_nil_eq : parse_message [] = [] := by
  rw [parse_message.eq_def]

theorem parse_message_us (rest : List Char) : parse_message (US :: rest) = [] := by
  rw [parse_message.eq_def]
  simp

/-- Core behaviour of parse_message on a variable-length field whose
value is terminated by GS or RS: the field is emitted and parsing
continues after the separator, with an output that does not depend on
which of the two separators ended the value. -/
theorem parse_message_var_field (c1 c2 : Char) (v rest : List Char)
    (name : String) (sep : Char)
    (hinfo : get_di_info (String.mk [c1, c2]) = (name, none))
    (hc1 : c1 ≠ US)
    (hv : ∀ ch ∈ v, notSeparator ch = true)
    (hsep : sep = GS ∨ sep = RS) :
    parse_message (c1 :: c2 :: (v ++ sep :: rest)) =
      ⟨String.mk [c1, c2], String.mk v, name⟩ :: parse_message rest := by
  have hsepF : notSeparator sep = false := by
    rcases hsep with h | h <;> subst h <;> decide
  have hval : (v ++ sep :: rest).takeWhile notSeparator = v := by
    rw [takeWhile_append_of_all hv, List.takeWhile_cons, if_neg (by simp [hsepF])]
    simp
  have hdrop : (v ++ sep :: rest).dropWhile notSeparator = sep :: rest := by
    rw [dropWhile_append_of_all hv, List.dropWhile_cons, if_neg (by simp [hsepF])]
  rw [parse_message.eq_def]
  simp only [if_neg hc1]
  rw [hinfo]
  dsimp only
  rw [hval]
  split
  · rename_i heq
    rw [hdrop] at heq
    exact absurd heq (by simp)
  · rename_i sep2 rest2 heq
    rw [hdrop] at heq
    injection heq with h1 h2
    subst h1
    subst h2
    rw [if_pos hsep]

/-- Core behaviour of parse_message on a fixed-length field whose
declared length exceeds the remaining data: the remaining characters
become the value and the scan ends. -/
theorem parse_message_fixed_overflow (c1 c2 : Char) (v : List Char)
    (name : String) (n : ℕ)
    (hc1 : c1 ≠ US)
    (hinfo : get_di_info (String.mk [c1, c2]) = (name, some n))
    (hlen : v.length < n) :
    parse_message (c1 :: c2 :: v) = [⟨String.mk [c1, c2], String.mk v, name⟩] := by
  rw [parse_message.eq_def]
  simp only [if_neg hc1]
  rw [hinfo]
  dsimp only
  rw [if_pos hlen]

/-- Every parsed field consumes at least the two characters of its
Data Identifier, so the field count is at most half the input length;
in particular the scan always terminates. -/
theorem parse_message_length_le (msg : List Char) :
    2 * (parse_message msg).length ≤ msg.length := by
  generalize hn : msg.length = n
  induction n using Nat.strong_induction_on generalizing msg with
  | _ n ih =>
  cases msg with
  | nil =>
    rw [parse_message_nil_eq]
    simp
  | cons c1 rest =>
    rw [parse_message.eq_def]
    dsimp only
    by_cases hc1 : c1 = US
    · rw [if_pos hc1]
      simp
    · rw [if_neg hc1]
      cases rest with
      | nil => simp
      | cons c2 rest2 =>
        dsimp only
        simp only [List.length_cons] at hn
        rcases hinfo : get_di_info (String.mk [c1, c2]) with ⟨name, fl⟩
        cases fl with
        | some k =>
          dsimp only
          by_cases hlen : rest2.length < k
          · rw [if_pos hlen]
            simp only [List.length_cons, List.length_singleton, List.length_nil]
            omega
          · rw [if_neg hlen]
            have hih := ih (rest2.drop k).length
              (by simp only [List.length_drop]; omega) (rest2.drop k) rfl
            simp only [List.length_cons, List.length_drop] at hih ⊢
            omega
        | none =>
          dsimp only
          split
          · simp only [List.length_cons, List.length_singleton, List.length_nil]
            omega
          · rename_i sep rest4 heq
            have hd : rest4.length < rest2.length := by
              have h := length_dropWhile_le notSeparator rest2
              rw [heq] at h
              simp only [List.length_cons] at h
              omega
            split_ifs with hsep
            · have hih := ih rest4.length (by omega) rest4 rfl
              simp only [List.length_cons] at hih ⊢
              omega
            · have hih := ih (sep :: rest4).length
                (by simp only [List.length_cons]; omega) (sep :: rest4) rfl
              simp only [List.length_cons] at hih ⊢
              omega

/-! ## Claim C10 -/

/-- C10: parse_message is total over all inputs (embedded as a
terminating recursion whose field count is bounded by half the input
length, since every iteration consumes at least the two DI characters);
scanning stops at US or at the end of the input; and a fixed-length
field whose declared length exceeds the remaining data takes exactly
the remaining characters as its value and ends the scan. -/
theorem parse_message_total_spec :
    (∀ msg : List Char, 2 * (parse_message msg).length ≤ msg.length) ∧
    (∀ rest : List Char, parse_message (US :: rest) = []) ∧
    parse_message ([] : List Char) = [] ∧
    (∀ (c1 c2 : Char) (v : List Char) (name : String) (n : ℕ),
      c1 ≠ US → get_di_info (String.mk [c1, c2]) = (name, some n) →
      v.length < n →
      parse_message (c1 :: c2 :: v) = [⟨String.mk [c1, c2], String.mk v, name⟩]) :=
  ⟨parse_message_length_le, parse_message_us, parse_message_nil_eq,
   fun c1 c2 v name n hc1 hinfo hlen =>
     parse_message_fixed_overflow c1 c2 v name n hc1 hinfo hlen⟩

/-- Witness for C10: the fixed-length DI 24 (postal code, 5 chars) with
only 3 characters of data left takes those characters and ends the
scan. -/
theorem parse_message_total_spec_witness :
    parse_message ('2' :: '4' :: "750".toList) =
      [⟨String.mk ['2', '4'], String.mk "750".toList, "Code postal"⟩] :=
  parse_message_total_spec.2.2.2 '2' '4' ("750".toList) "Code postal" 5
    (by decide) (by decide) (by decide)

/-! ## Claim C6 -/

/-- C6 (amended): in the 2D-DOC message zone each field is a
2-character DI followed by its value; a variable-length value is
terminated by GS; RS also terminates the value, but the parser does not
mark the field as truncated — the parsed output is identical to the GS
case (see the counterexample theorem); US ends the message, with
everything after the first US after the header being the signature
payload of parse_twod_doc; and a DI absent from the registry is
accepted as a variable-length field instead of failing the parse. -/
theorem parse_message_field_grammar :
    (∀ (c1 c2 : Char) (v rest : List Char) (name : String),
      get_di_info (String.mk [c1, c2]) = (name, none) → c1 ≠ US →
      (∀ ch ∈ v, notSeparator ch = true) →
      parse_message (c1 :: c2 :: (v ++ GS :: rest)) =
        ⟨String.mk [c1, c2], String.mk v, name⟩ :: parse_message rest) ∧
    (∀ (c1 c2 : Char) (v rest : List Char) (name : String),
      get_di_info (String.mk [c1, c2]) = (name, none) → c1 ≠ US →
      (∀ ch ∈ v, notSeparator ch = true) →
      parse_message (c1 :: c2 :: (v ++ RS :: rest)) =
        ⟨String.mk [c1, c2], String.mk v, name⟩ :: parse_message rest) ∧
    (∀ rest : List Char, parse_message (US :: rest) = []) ∧
    (∀ (raw : List Char) (h : TwoDocHeader) (e : String × ℕ),
      parse_header raw = some h →
      HEADER_SIZES.find? (fun en => en.1.toList == h.version) = some e →
      ∀ msg sig : List Char, raw.drop e.2 = msg ++ US :: sig →
      (∀ ch ∈ msg, (ch == US) = false) →
      parse_twod_doc raw = some ⟨h, parse_message msg,
        if sig = [] then none else some sig, msg⟩) ∧
    (∀ di : String, DI_REGISTRY.find? (fun en => en.1 == di) = none →
      get_di_info di = ("Champ inconnu (" ++ di ++ ")", none)) := by
  refine ⟨?_, ?_, parse_message_us, ?_, ?_⟩
  · intro c1 c2 v rest name hinfo hc1 hv
    exact parse_message_var_field c1 c2 v rest name GS hinfo hc1 hv (Or.inl rfl)
  · intro c1 c2 v rest name hinfo hc1 hv
    exact parse_message_var_field c1 c2 v rest name RS hinfo hc1 hv (Or.inr rfl)
  · intro raw h e hph hfind msg sig hdrop hmsg
    rw [parse_twod_doc, hph]
    dsimp only
    rw [hfind]
    dsimp only
    rw [hdrop]
    have hmsg2 : ∀ ch ∈ msg, (!(ch == US)) = true := by
      intro ch hch
      rw [hmsg ch hch]
      rfl
    have htake : (msg ++ US :: sig).takeWhile (fun ch => !(ch == US)) = msg := by
      rw [takeWhile_append_of_all hmsg2, List.takeWhile_cons, if_neg (by simp)]
      simp
    have hdw : (msg ++ US :: sig).dropWhile (fun ch => !(ch == US)) = US :: sig := by
      rw [dropWhile_append_of_all hmsg2, List.dropWhile_cons, if_neg (by simp)]
    rw [htake, hdw]
  · intro di hfind
    rw [get_di_info, hfind]

/-- Witness for C6 at concrete inputs: a known variable DI (10)
terminated by GS, an unknown DI (ZZ) looked up in the registry, and a
complete version-01 2D-DOC whose message is split from its signature at
US. -/
theorem parse_message_field_grammar_witness :
    parse_message ('1' :: '0' :: ("AB".toList ++ GS :: [])) =
      ⟨String.mk ['1', '0'], String.mk "AB".toList,
        "Qualité + Nom + Prénom du bénéficiaire"⟩ :: parse_message [] ∧
    get_di_info "ZZ" = ("Champ inconnu (ZZ)", none) ∧
    parse_twod_doc ("DC01FR0000010000000001".toList ++
        ("10AB".toList ++ US :: "SIG".toList)) =
      some ⟨{ raw := "DC01FR0000010000000001".toList
              version := "01".toList
              ca_id := "FR00".toList
              cert_id := "0001".toList
              emission_date := hex_date_to_date ("0000".toList)
              signature_date := hex_date_to_date ("0000".toList)
              document_type := "01".toList
              perimeter := none
              country := none },
            parse_message ("10AB".toList),
            if ("SIG".toList : List Char) = [] then none else some ("SIG".toList),
            "10AB".toList⟩ := by
  refine ⟨parse_message_field_grammar.1 '1' '0' ("AB".toList) []
      "Qualité + Nom + Prénom du bénéficiaire"
      (by decide) (by decide) (by decide),
    parse_message_field_grammar.2.2.2.2 "ZZ" (by decide), ?_⟩
  exact parse_message_field_grammar.2.2.2.1 _ _ ("01", 22) (by decide) (by decide)
    ("10AB".toList) ("SIG".toList) (by decide) (by decide)

/-- Counterexample for C6 as stated: an RS-terminated variable field
parses to exactly the same output as the GS-terminated one — the
distinct inputs are indistinguishable in the result, so the parser does
not mark the field as truncated. -/
theorem parse_message_rs_truncation_cex :
    parse_message ('1' :: '0' :: ('A' :: 'B' :: [RS])) =
      parse_message ('1' :: '0' :: ('A' :: 'B' :: [GS])) ∧
    ('1' :: '0' :: ('A' :: 'B' :: [RS])) ≠ ('1' :: '0' :: ('A' :: 'B' :: [GS])) := by
  constructor
  · have h1 := parse_message_var_field '1' '0' ['A', 'B'] []
      "Qualité + Nom + Prénom du bénéficiaire" RS
      (by decide) (by decide) (by decide) (Or.inr rfl)
    have h2 := parse_message_var_field '1' '0' ['A', 'B'] []
      "Qualité + Nom + Prénom du bénéficiaire" GS
      (by decide) (by decide) (by decide) (Or.inl rfl)
    rw [show ('1' :: '0' :: ('A' :: 'B' :: [RS])) =
        ('1' :: '0' :: (['A', 'B'] ++ RS :: [])) from rfl,
      show ('1' :: '0' :: ('A' :: 'B' :: [GS])) =
        ('1' :: '0' :: (['A', 'B'] ++ GS :: [])) from rfl, h1, h2]
  · decide

end TrustyFile
